import Mathlib

/-!
Verification of the skyscanner flight-search repository.

This file shallowly embeds the core of `src/app.py` (the flight-record
builder `process_flight_response`, its dedup/merge ledger, the result
sorter `sort_flights`, the destination-expansion loops of
`search_everywhere_multi`, and the request-validation part of the two
search endpoints) together with the country drill-down loop of
`src/cerca_voli.py`, and proves or refutes the frozen claims about them.

Modelling conventions:
* Python dictionaries read with `dict.get(key, default)` become structure
  fields; when the default used at an access site is context dependent the
  field is an `Option` and the default is applied at the access site, as
  in the source.
* Prices and hour parameters are numeric in Python (floats/ints used only
  in order comparisons and copies); they are embedded as `Int`.
* A timestamp string is classified by the only two operations the source
  applies to it (truthiness and `datetime.fromisoformat`): it is empty,
  malformed (non-empty and not ISO), or a valid ISO timestamp carrying a
  minute-precision datetime.
* Raised Python exceptions are embedded as the `Except PyErr` monad:
  an `.error` value aborts the rest of the computation, exactly as an
  uncaught exception propagates out of `process_flight_response`.
-/

/-- Python exceptions that the embedded code can raise. -/
inductive PyErr where
  | valueError
  | indexError
deriving DecidableEq, Repr

/-- A `datetime.datetime` value at minute precision (the source only ever
reads `.hour`, `.minute`, `.date()` and minute-level differences). -/
structure PyDateTime where
  year : Int
  month : Nat
  day : Nat
  hour : Nat
  minute : Nat
deriving DecidableEq, Repr

/-- The date triple returned by `datetime.date()`. -/
def dateOf (d : PyDateTime) : Int × Nat × Nat := (d.year, d.month, d.day)

/-- Days since 1970-01-01 of a civil date (Hinnant's algorithm); used to
embed `datetime` subtraction exactly at minute precision. -/
def daysFromCivil (y : Int) (m d : Nat) : Int :=
  let y' : Int := if m ≤ 2 then y - 1 else y
  let era : Int := (if 0 ≤ y' then y' else y' - 399) / 400
  let yoe : Int := y' - era * 400
  let mp : Int := ((m : Int) + 9) % 12
  let doy : Int := (153 * mp + 2) / 5 + (d : Int) - 1
  let doe : Int := yoe * 365 + yoe / 4 - yoe / 100 + doy
  era * 146097 + doe - 719468

/-- Minutes since the epoch; `(b - a).total_seconds() / 60` in the source
equals `toMin b - toMin a` for minute-precision datetimes. -/
def toMin (t : PyDateTime) : Int :=
  daysFromCivil t.year t.month t.day * 1440 + t.hour * 60 + t.minute

/-- Classification of a timestamp string by the only operations the source
applies to one: truthiness and `datetime.fromisoformat`. -/
inductive TStr where
  | empty
  | malformed (s : String)
  | valid (d : PyDateTime)
deriving DecidableEq, Repr

/-- `datetime.datetime.fromisoformat`: raises `ValueError` on an empty or
malformed string. -/
def fromisoformat : TStr → Except PyErr PyDateTime
  | .empty => .error .valueError
  | .malformed _ => .error .valueError
  | .valid d => .ok d

/-- Two-digit zero padding, Python's `%02d` for values in `[0, 99]`. -/
def pad2 (n : Nat) : String :=
  if n < 10 then "0" ++ toString n else toString n

/-- `datetime.strftime("%H:%M")`. -/
def strftimeHM (d : PyDateTime) : String :=
  pad2 d.hour ++ ":" ++ pad2 d.minute

/-- Python's `pat in s` substring test. -/
def containsSub (s pat : String) : Bool :=
  decide (pat.toList <:+: s.toList)

/-- `normalize_carrier_name` from `src/app.py`. -/
def normalize_carrier_name (name : String) : String :=
  if name = "" then "N/A"
  else
    let lower_name := name.trim.toLower
    if containsSub lower_name "easyjet" then "easyJet" else name.trim

/-- A marketing carrier entry of a leg. -/
structure Carrier where
  name : Option String := none
  logoUrl : Option String := none
deriving DecidableEq, Repr

/-- The `destination` dict of a flight segment. -/
structure SegDest where
  city : Option String := none
  name : Option String := none
  displayCode : Option String := none
deriving DecidableEq, Repr

/-- One flight segment of a leg. -/
structure Segment where
  destination : SegDest := {}
  arrival : TStr := .empty
  departure : TStr := .empty
deriving DecidableEq, Repr

/-- The `origin` dict of a leg. -/
structure OrigInfo where
  displayCode : Option String := none
deriving DecidableEq, Repr

/-- The `destination` dict of a leg. -/
structure DestInfo where
  city : Option String := none
  country : Option String := none
  displayCode : Option String := none
deriving DecidableEq, Repr

/-- One leg of an itinerary item; fields read with a fixed default in the
source are stored with that default applied. -/
structure Leg where
  departure : TStr := .empty
  arrival : TStr := .empty
  stopCount : Nat := 0
  durationInMinutes : Nat := 0
  marketing : List Carrier := []
  origin : OrigInfo := {}
  destination : DestInfo := {}
  segments : List Segment := []
deriving DecidableEq, Repr

/-- One raw itinerary item. `price` is `item.get("price",{}).get("raw", 999999)`
collapsed to one `Option`; `legs` is `item.get("legs", [{}])`. -/
structure Item where
  id : String
  price : Option Int := none
  legs : Option (List Leg) := none
deriving DecidableEq, Repr

def defaultLeg : Leg := {}

/-- `item.get("legs", [{}])`. -/
def itemLegs (item : Item) : List Leg := item.legs.getD [defaultLeg]

/-- A raw flight-search response, reduced to the item lists of its
itinerary buckets (`response.json["itineraries"]["buckets"][i]["items"]`). -/
structure FlightResponse where
  buckets : List (List Item) := []
deriving DecidableEq, Repr

/-- The flattening performed by the nested `for bucket ... for item` loops. -/
def allItems (r : FlightResponse) : List Item := r.buckets.flatten

/-- An `Airport` record of the backend client (`skyscanner.types.Airport`). -/
structure Airport where
  skyId : String
  title : String := ""
  subtitle : String := ""
  entity_type : String := ""
deriving DecidableEq, Repr

/-- The `city` dict handed to `process_flight_response`
(`{"name": ..., "skyCode": ..., "country": ...}`). -/
structure City where
  name : String
  skyCode : String
  country : Option String := none
deriving DecidableEq, Repr

/-- The filter parameters of `process_flight_response`. -/
structure Params where
  max_price : Int
  min_hour : Int := 0
  max_hour : Int := 24
  min_arrival_hour : Int := 0
  max_arrival_hour : Int := 24
  direct_only : Bool := false
  same_day : Bool := true
deriving DecidableEq, Repr

/-- A stopover entry of a Flight Record. -/
structure Stopover where
  citta : String
  codice : String
  arrivo : String
  partenza : String
  attesa : String
deriving DecidableEq, Repr

/-- A Flight Record (the `flight` dict built by `process_flight_response`). -/
structure Flight where
  citta : String
  paese : String
  codice_dest : String
  codice_origine : String
  prezzo : Int
  partenza : String
  arrivo : String
  durata : String
  durata_min : Nat
  scali : Nat
  stopovers : List Stopover
  compagnia : String
  logo_url : Option String
deriving DecidableEq, Repr

/-- The wait-duration string `f"{m // 60}h {m % 60:02d}min"` (only built
for positive `m`). -/
def fmtAttesa (m : Int) : String :=
  toString (m.toNat / 60) ++ "h " ++ pad2 (m.toNat % 60) ++ "min"

/-- The duration string `f"{d // 60}h {d % 60:02d}min"`. -/
def fmtDurata (d : Nat) : String :=
  toString (d / 60) ++ "h " ++ pad2 (d % 60) ++ "min"

/-- One stopover entry computed from an adjacent pair of segments
(`src/app.py` lines 213-246).  The wait computation is guarded by
`try/except ValueError` and falls back to `0`, but the `arrivo` and
`partenza` fields re-parse the same strings outside the guard and can
raise. -/
def mkStopover (seg next_seg : Segment) : Except PyErr Stopover :=
  let stop_dest := seg.destination
  let stop_city := stop_dest.city.getD (stop_dest.name.getD "")
  let stop_code := stop_dest.displayCode.getD ""
  let seg_arr := seg.arrival
  let next_dep := next_seg.departure
  let layover_min : Int :=
    if seg_arr ≠ TStr.empty ∧ next_dep ≠ TStr.empty then
      match fromisoformat seg_arr, fromisoformat next_dep with
      | .ok arr_time, .ok dep_time => toMin dep_time - toMin arr_time
      | _, _ => 0
    else 0
  match (if seg_arr ≠ TStr.empty then (fromisoformat seg_arr).map strftimeHM
         else .ok "") with
  | .error e => .error e
  | .ok arrivo =>
    match (if next_dep ≠ TStr.empty then (fromisoformat next_dep).map strftimeHM
           else .ok "") with
    | .error e => .error e
    | .ok partenza =>
      .ok { citta := stop_city
            codice := stop_code
            arrivo := arrivo
            partenza := partenza
            attesa := if layover_min > 0 then fmtAttesa layover_min else "" }

/-- The `for seg_idx in range(len(segments) - 1)` loop over adjacent
segment pairs. -/
def computeStopovers : List Segment → Except PyErr (List Stopover)
  | [] => .ok []
  | [_] => .ok []
  | a :: b :: rest =>
    match mkStopover a b with
    | .error e => .error e
    | .ok s =>
      match computeStopovers (b :: rest) with
      | .error e => .error e
      | .ok others => .ok (s :: others)

/-- The body of the per-item loop of `process_flight_response`
(everything between the `voli_visti` check and the ledger insertion).
`ca` selects the first pass (lines 160-281, which checks the arrival-time
window) or the second pass (lines 282-397, which lacks that check); the
two loop bodies are otherwise identical.  `.ok none` is a `continue`,
`.ok (some f)` reaches the ledger, `.error` is a raised exception. -/
def processItem (ca : Bool) (p : Params) (origin : Airport) (city : City)
    (item : Item) : Except PyErr (Option Flight) :=
  let price := item.price.getD 999999
  if price > p.max_price then .ok none else
  match itemLegs item with
  | [] => .error .indexError
  | leg :: _ =>
    if leg.departure = TStr.empty ∨ leg.arrival = TStr.empty then .ok none else
    match fromisoformat leg.departure with
    | .error e => .error e
    | .ok dep =>
    match fromisoformat leg.arrival with
    | .error e => .error e
    | .ok arr =>
      let dep_minutes : Int := dep.hour * 60 + dep.minute
      if dep_minutes < p.min_hour * 60 ∨ dep_minutes > p.max_hour * 60 then
        .ok none else
      if ca ∧ ((arr.hour * 60 + arr.minute : Int) < p.min_arrival_hour * 60 ∨
               (arr.hour * 60 + arr.minute : Int) > p.max_arrival_hour * 60) then
        .ok none else
      if p.same_day ∧ dateOf arr ≠ dateOf dep then .ok none else
      let stops := leg.stopCount
      if p.direct_only ∧ stops > 0 then .ok none else
      let duration := leg.durationInMinutes
      let carriers := leg.marketing
      match (if stops > 0 ∧ leg.segments.length > 1
             then computeStopovers leg.segments else .ok []) with
      | .error e => .error e
      | .ok stopovers =>
        let carrier_name :=
          match carriers with
          | [] => "N/A"
          | c :: _ => normalize_carrier_name (c.name.getD "N/A")
        let carrier_logo : Option String :=
          match carriers with
          | [] => some ""
          | c :: _ => c.logoUrl
        .ok (some
          { citta := leg.destination.city.getD city.name
            paese := leg.destination.country.getD (city.country.getD "")
            codice_dest := leg.destination.displayCode.getD city.skyCode
            codice_origine := leg.origin.displayCode.getD origin.skyId
            prezzo := price
            partenza := strftimeHM dep
            arrivo := strftimeHM arr
            durata := fmtDurata duration
            durata_min := duration
            scali := stops
            stopovers := stopovers
            compagnia := carrier_name
            logo_url := carrier_logo })

/-- The composite dedup key
`f"{codice_origine}-{codice_dest}-{partenza}-{compagnia}"`. -/
def mkKey (f : Flight) : String :=
  f.codice_origine ++ "-" ++ f.codice_dest ++ "-" ++ f.partenza ++ "-" ++ f.compagnia

/-- The cross-search ledger `voli_keys` (a Python dict used only for
membership, lookup and fresh insertion; embedded as an ordered
association list). -/
abbrev Ledger := List (String × Nat)

def lookupKey : Ledger → String → Option Nat
  | [], _ => none
  | (k, v) :: rest, key => if k = key then some v else lookupKey rest key

/-- The ledger insertion of `process_flight_response` (lines 271-281):
on key collision keep the cheaper record in place, otherwise append and
record the key → index mapping.  The inner `.error` arm is Python's
`IndexError` on a stale index, unreachable while the ledger invariant
holds. -/
def ledgerStep (voli : List Flight) (keys : Ledger) (flight : Flight) :
    Except PyErr (List Flight × Ledger) :=
  let key := mkKey flight
  match lookupKey keys key with
  | some existing_idx =>
    match voli[existing_idx]? with
    | some old =>
      if flight.prezzo < old.prezzo then .ok (voli.set existing_idx flight, keys)
      else .ok (voli, keys)
    | none => .error .indexError
  | none => .ok (voli ++ [flight], keys ++ [(key, voli.length)])

/-- One pass of `process_flight_response` over the (flattened) items of a
response, with its fresh intra-response `voli_visti` id set. -/
def runPass (ca : Bool) (p : Params) (origin : Airport) (city : City) :
    List Item → List String → List Flight → Ledger →
    Except PyErr (List Flight × Ledger)
  | [], _, voli, keys => .ok (voli, keys)
  | item :: rest, visti, voli, keys =>
    if item.id ∈ visti then runPass ca p origin city rest visti voli keys
    else
      match processItem ca p origin city item with
      | .error e => .error e
      | .ok none => runPass ca p origin city rest (item.id :: visti) voli keys
      | .ok (some flight) =>
        match ledgerStep voli keys flight with
        | .error e => .error e
        | .ok (v, k) => runPass ca p origin city rest (item.id :: visti) v k

/-- `process_flight_response` from `src/app.py` (lines 143-397): two
sequential passes over the same response, each with a fresh `voli_visti`
set; only the first pass applies the arrival-time window. -/
def process_flight_response (resp : FlightResponse) (origin : Airport)
    (city : City) (p : Params) (voli_trovati : List Flight)
    (voli_keys : Ledger) : Except PyErr (List Flight × Ledger) :=
  match runPass true p origin city (allItems resp) [] voli_trovati voli_keys with
  | .error e => .error e
  | .ok (v1, k1) => runPass false p origin city (allItems resp) [] v1 k1

/-- `sort_flights` from `src/app.py` (lines 691-696); Python's `sorted`
is a stable ascending sort, embedded as `List.mergeSort`. -/
def sort_flights (flights : List Flight) (sort_key : String) : List Flight :=
  if sort_key = "orario" then
    flights.mergeSort (fun a b => a.partenza ≤ b.partenza)
  else if sort_key = "durata" then
    flights.mergeSort (fun a b => a.durata_min ≤ b.durata_min)
  else
    flights.mergeSort (fun a b => a.prezzo ≤ b.prezzo)

/-- A country candidate found by the world scan
(`{"name": ..., "skyCode": ...}`). -/
structure Country where
  name : String
  skyCode : String
deriving DecidableEq, Repr

/-- One result entry of an `everywhereDestination`/`countryDestination`
list: `content.location.name`, `content.location.skyCode` and
`content.flightQuotes.cheapest.rawPrice`. -/
structure CDResult where
  name : Option String := none
  skyCode : Option String := none
  rawPrice : Option Int := none
deriving DecidableEq, Repr

/-- A `get_flight_prices` response, reduced to the two parts the embedded
code reads: `countryDestination.results` and `itineraries.buckets`. -/
structure PricesResponse where
  countryResults : List CDResult := []
  itineraries : FlightResponse := {}
deriving DecidableEq, Repr

/-- The backend client (`SkyScanner`): each call either returns a value or
raises (`GenericError` etc.), embedded as `Except`.  Flight-price queries
are keyed by origin and destination `skyId` (the travel date is fixed for
one search). -/
structure Scanner where
  search_airports : String → Except PyErr (List Airport)
  get_flight_prices : String → String → Except PyErr PricesResponse

/-- Python truthiness of an optional string (`location.get("name")`). -/
def truthyS (o : Option String) : Bool := o.getD "" ≠ ""

/-- The city-collection inner loop of the country drill-down in
`search_everywhere_multi` (`src/app.py` lines 456-469): qualifying results
are inserted into the `all_cities` dict keyed by `skyCode`, first
occurrence wins, insertion order preserved. -/
def collectCities (max_price : Int) (countryName : String) :
    List CDResult → List City → List City
  | [], acc => acc
  | r :: rest, acc =>
    let city_price := r.rawPrice.getD 999999
    if truthyS r.name ∧ truthyS r.skyCode ∧ city_price ≠ 0 ∧
        city_price ≤ max_price then
      let sky_code := r.skyCode.getD ""
      if acc.any (fun c => c.skyCode = sky_code) then
        collectCities max_price countryName rest acc
      else
        collectCities max_price countryName rest
          (acc ++ [{ name := r.name.getD "", skyCode := sky_code,
                     country := some countryName }])
    else collectCities max_price countryName rest acc

/-- One iteration of the country drill-down loop of
`search_everywhere_multi` (`src/app.py` lines 441-469).  No exception is
caught here: a failing `search_airports` or `get_flight_prices` call
propagates; an empty lookup result is skipped (`continue`). -/
def appCountryStep (sc : Scanner) (first_origin : Airport) (max_price : Int)
    (all_cities : List City) (country : Country) : Except PyErr (List City) :=
  match sc.search_airports country.skyCode with
  | .error e => .error e
  | .ok [] => .ok all_cities
  | .ok (a0 :: rest) =>
    let country_entity :=
      (((a0 :: rest).find? (fun a => a.skyId = country.skyCode)).getD a0)
    match sc.get_flight_prices first_origin.skyId country_entity.skyId with
    | .error e => .error e
    | .ok resp => .ok (collectCities max_price country.name resp.countryResults all_cities)

/-- The country drill-down loop of `search_everywhere_multi`
(`src/app.py` lines 441-471). -/
def appCountryLoop (sc : Scanner) (first_origin : Airport) (max_price : Int) :
    List Country → List City → Except PyErr (List City)
  | [], acc => .ok acc
  | c :: rest, acc =>
    match appCountryStep sc first_origin max_price acc c with
    | .error e => .error e
    | .ok acc' => appCountryLoop sc first_origin max_price rest acc'

/-- One origin×city pair of the flight fan-out of `search_everywhere_multi`
(`src/app.py` lines 476-500): resolve the city code to an airport (empty
result skipped), query flights, feed the response through
`process_flight_response`.  No exception is caught. -/
def appPairStep (sc : Scanner) (p : Params) (city : City) (origin : Airport)
    (voli : List Flight) (keys : Ledger) : Except PyErr (List Flight × Ledger) :=
  match sc.search_airports city.skyCode with
  | .error e => .error e
  | .ok [] => .ok (voli, keys)
  | .ok (a0 :: _) =>
    match sc.get_flight_prices origin.skyId a0.skyId with
    | .error e => .error e
    | .ok resp => process_flight_response resp.itineraries origin city p voli keys

/-- The inner (per-origin) loop of the flight fan-out. -/
def appOriginLoop (sc : Scanner) (p : Params) (city : City) :
    List Airport → List Flight → Ledger → Except PyErr (List Flight × Ledger)
  | [], voli, keys => .ok (voli, keys)
  | o :: rest, voli, keys =>
    match appPairStep sc p city o voli keys with
    | .error e => .error e
    | .ok (v, k) => appOriginLoop sc p city rest v k

/-- The `for city in cities: for origin in origin_list:` flight fan-out of
`search_everywhere_multi` (`src/app.py` lines 476-500). -/
def appFanOut (sc : Scanner) (p : Params) (origins : List Airport) :
    List City → List Flight → Ledger → Except PyErr (List Flight × Ledger)
  | [], voli, keys => .ok (voli, keys)
  | city :: rest, voli, keys =>
    match appOriginLoop sc p city origins voli keys with
    | .error e => .error e
    | .ok (v, k) => appFanOut sc p origins rest v k

/-- The city-collection loop of `src/cerca_voli.py` (lines 62-72): plain
appends, no dedup (duplicates are removed in a later pass). -/
def cercaCollect (max_price : Int) (countryName : String) :
    List CDResult → List City
  | [] => []
  | r :: rest =>
    let city_price := r.rawPrice.getD 999999
    if truthyS r.name ∧ truthyS r.skyCode ∧ city_price ≠ 0 ∧
        city_price ≤ max_price then
      { name := r.name.getD "", skyCode := r.skyCode.getD "",
        country := some countryName } :: cercaCollect max_price countryName rest
    else cercaCollect max_price countryName rest

/-- One iteration of the country drill-down loop of `src/cerca_voli.py`
(lines 45-74).  The whole body is wrapped in `try: ... except: continue`,
so a failing backend call makes the country contribute zero cities. -/
def cercaCountryStep (sc : Scanner) (origin : Airport) (max_price : Int)
    (country : Country) : List City :=
  match sc.search_airports country.skyCode with
  | .error _ => []
  | .ok [] => []
  | .ok (a0 :: rest) =>
    let country_entity :=
      (((a0 :: rest).find? (fun a => a.skyId = country.skyCode)).getD a0)
    match sc.get_flight_prices origin.skyId country_entity.skyId with
    | .error _ => []
    | .ok resp => cercaCollect max_price country.name resp.countryResults

/-- The country drill-down loop of `src/cerca_voli.py` (lines 43-74):
`all_cities` accumulates each country's contribution in order. -/
def cercaCountryLoop (sc : Scanner) (origin : Airport) (max_price : Int)
    (countries : List Country) : List City :=
  (countries.map (cercaCountryStep sc origin max_price)).flatten

/-- A JSON scalar payload value (the request fields the endpoints read). -/
inductive JVal where
  | num (n : Int)
  | str (s : String)
  | boolean (b : Bool)
  | null
deriving DecidableEq, Repr

/-- Python truthiness (`bool(v)`) of a JSON scalar. -/
def truthy : JVal → Bool
  | .num n => n ≠ 0
  | .str s => s ≠ ""
  | .boolean b => b
  | .null => false

/-- A dict entry of the `origins`/`destinations` payload lists, as read by
`normalize_selected_locations`. -/
structure LocDict where
  code : Option String := none
  skyId : Option String := none
  entityType : Option String := none
  entity_type : Option String := none
  title : Option String := none
  label : Option String := none
deriving DecidableEq, Repr

/-- One raw entry of the `origins`/`destinations` payload lists: a string,
a dict, or anything else (silently dropped by the source). -/
inductive RawLoc where
  | strItem (s : String)
  | dictItem (d : LocDict)
  | otherItem
deriving DecidableEq, Repr

/-- A normalized location (`{"code": ..., "entity_type": ..., "title": ...}`). -/
structure NormLoc where
  code : String
  entity_type : String
  title : String
deriving DecidableEq, Repr

/-- Python's short-circuit `a or b` on two optional strings (a `None` or
empty left operand yields the right operand). -/
def pyOrS (a b : Option String) : Option String :=
  match a with
  | some s => if s = "" then b else some s
  | none => b

/-- Python's `a or dflt` yielding a string. -/
def pyOrStr (a : Option String) (dflt : String) : String :=
  match a with
  | some s => if s = "" then dflt else s
  | none => dflt

/-- `normalize_selected_locations` from `src/app.py` (lines 42-57). -/
def normalize_selected_locations (items : List RawLoc) : List NormLoc :=
  items.foldr
    (fun item rest =>
      match item with
      | .strItem s => { code := s, entity_type := "", title := "" } :: rest
      | .dictItem d =>
        match pyOrS d.code d.skyId with
        | none => rest
        | some c =>
          if c = "" then rest
          else
            { code := c,
              entity_type := pyOrStr (pyOrS d.entityType d.entity_type) "",
              title := pyOrStr (pyOrS d.title d.label) "" } :: rest
      | .otherItem => rest)
    []

/-- The accumulator loop of `dedupe_codes`. -/
def dedupeCodesGo : List NormLoc → List String → List String
  | [], _ => []
  | it :: rest, seen =>
    if it.code = "" ∨ it.code ∈ seen then dedupeCodesGo rest seen
    else it.code :: dedupeCodesGo rest (it.code :: seen)

/-- `dedupe_codes` from `src/app.py` (lines 60-69). -/
def dedupe_codes (items : List NormLoc) : List String := dedupeCodesGo items []

/-- Split a character list on the slash separator. -/
def splitSlash : List Char → List (List Char)
  | [] => [[]]
  | c :: rest =>
    let r := splitSlash rest
    if c = '/' then [] :: r
    else
      match r with
      | [] => [[c]]
      | g :: gs => (c :: g) :: gs

/-- The numeric value of one decimal digit. -/
def charDigit? (c : Char) : Option Nat :=
  if '0' ≤ c ∧ c ≤ '9' then some (c.toNat - '0'.toNat) else none

def digitsValGo : List Char → Nat → Option Nat
  | [], acc => some acc
  | c :: rest, acc =>
    match charDigit? c with
    | none => none
    | some d => digitsValGo rest (acc * 10 + d)

/-- The value of a non-empty all-digit character list. -/
def digitsVal? : List Char → Option Nat
  | [] => none
  | cs => digitsValGo cs 0

/-- `parse_date` from `src/app.py`:
`datetime.strptime(date_str, "%d/%m/%Y")`, raising `ValueError` on a
malformed date.  Day-in-month validation is approximated (day ≤ 31); no
claim depends on calendar edge cases. -/
def parse_date (s : String) : Except PyErr PyDateTime :=
  match splitSlash s.toList with
  | [d, m, y] =>
    match digitsVal? d, digitsVal? m, digitsVal? y with
    | some dd, some mm, some yy =>
      if 1 ≤ dd ∧ dd ≤ 31 ∧ 1 ≤ mm ∧ mm ≤ 12 then
        .ok { year := yy, month := mm, day := dd, hour := 0, minute := 0 }
      else .error .valueError
    | _, _, _ => .error .valueError
  | _ => .error .valueError

/-- `float(v)` on a JSON scalar; `TypeError` on `None` is collapsed into
`ValueError` (the endpoints catch both with one `except`). -/
def pyFloat : JVal → Except PyErr Int
  | .num n => .ok n
  | .boolean b => .ok (if b then 1 else 0)
  | .str s => match s.trim.toInt? with
              | some n => .ok n
              | none => .error .valueError
  | .null => .error .valueError

/-- `int(v)` on a JSON scalar (same error classes as `pyFloat`). -/
def pyInt : JVal → Except PyErr Int
  | .num n => .ok n
  | .boolean b => .ok (if b then 1 else 0)
  | .str s => match s.trim.toInt? with
              | some n => .ok n
              | none => .error .valueError
  | .null => .error .valueError

/-- `strptime` applied to a non-string raises `TypeError`, also caught. -/
def jAsStr : JVal → Except PyErr String
  | .str s => .ok s
  | _ => .error .valueError

/-- The JSON request payload of the search endpoints
(`request.get_json(silent=True) or {}`); absent keys are `none`. -/
structure Payload where
  origins : List RawLoc := []
  destinations : List RawLoc := []
  search_everywhere : Option JVal := none
  depart_date : Option JVal := none
  max_price : Option JVal := none
  min_hour : Option JVal := none
  max_hour : Option JVal := none
  min_arrival_hour : Option JVal := none
  max_arrival_hour : Option JVal := none
  direct_only : Option JVal := none
  same_day : Option JVal := none
  sort : Option JVal := none

/-- Everything the endpoints compute from the payload before any backend
interaction and hand to the search proper. -/
structure SearchArgs where
  origin_codes : List String
  dest_items : List NormLoc
  dest_codes : List String
  search_everywhere : Bool
  depart_date : PyDateTime
  p : Params
  sort_key : String
deriving DecidableEq, Repr

/-- Outcome of the pre-backend part of a search endpoint. -/
inductive RequestCheck where
  | errEmptyOrigins
  | errBadFields
  | proceed (a : SearchArgs)
deriving DecidableEq, Repr

/-- The pre-backend request handling shared verbatim by the two search
endpoints (`src/app.py` lines 732-764 and 1078-1110): normalize and
dedup the location lists, reject an empty origin list, parse the scalar
fields (rejecting bad values), read the flag defaults.  Everything here
is computed from the payload alone. -/
def requestCheck (payload : Payload) : RequestCheck :=
  let origin_items := normalize_selected_locations payload.origins
  let dest_items := normalize_selected_locations payload.destinations
  let origin_codes := dedupe_codes origin_items
  let dest_codes := dedupe_codes dest_items
  let search_everywhere :=
    truthy (payload.search_everywhere.getD (.boolean false)) ||
    decide ("EVERYWHERE" ∈ dest_codes) || dest_codes.isEmpty
  if origin_codes.isEmpty then .errEmptyOrigins
  else
    match jAsStr (payload.depart_date.getD (.str "")) with
    | .error _ => .errBadFields
    | .ok ds =>
    match parse_date ds with
    | .error _ => .errBadFields
    | .ok depart_date =>
    match pyFloat (payload.max_price.getD (.num 0)) with
    | .error _ => .errBadFields
    | .ok max_price =>
    match pyInt (payload.min_hour.getD (.num 0)) with
    | .error _ => .errBadFields
    | .ok min_hour =>
    match pyInt (payload.max_hour.getD (.num 24)) with
    | .error _ => .errBadFields
    | .ok max_hour =>
    match pyInt (payload.min_arrival_hour.getD (.num 0)) with
    | .error _ => .errBadFields
    | .ok min_arrival_hour =>
    match pyInt (payload.max_arrival_hour.getD (.num 24)) with
    | .error _ => .errBadFields
    | .ok max_arrival_hour =>
      let direct_only := truthy (payload.direct_only.getD .null)
      let same_day :=
        match payload.same_day with
        | none => true
        | some v => truthy v
      let sort_key :=
        match payload.sort.getD (.str "prezzo") with
        | .str s => s
        | _ => ""
      .proceed
        { origin_codes := origin_codes
          dest_items := dest_items
          dest_codes := dest_codes
          search_everywhere := search_everywhere
          depart_date := depart_date
          p := { max_price := max_price, min_hour := min_hour,
                 max_hour := max_hour, min_arrival_hour := min_arrival_hour,
                 max_arrival_hour := max_arrival_hour,
                 direct_only := direct_only, same_day := same_day }
          sort_key := sort_key }

/-- The pre-backend part of the synchronous endpoint `api_search`
(`src/app.py` lines 1078-1110). -/
def apiSearchCheck (payload : Payload) : RequestCheck := requestCheck payload

/-- The pre-backend part of the streaming endpoint `api_search_stream`
(`src/app.py` lines 732-764, textually identical to the synchronous
one). -/
def apiSearchStreamCheck (payload : Payload) : RequestCheck := requestCheck payload

/-- Result of the synchronous endpoint, as far as the claims need it. -/
inductive ApiResult where
  | err400 (msg : String)
  | okSearch (flights : List Flight) (everywhere : Bool)
deriving DecidableEq, Repr

/-- The synchronous endpoint `api_search` (`src/app.py` lines 1076-1194).
`run` stands for everything from `build_scanner()` on — every backend
interaction happens inside it, so a result that holds for all `run` was
produced without any backend call. -/
def api_search (payload : Payload)
    (run : SearchArgs → List Flight × Bool) : ApiResult :=
  match apiSearchCheck payload with
  | .errEmptyOrigins => .err400 "Seleziona almeno un aeroporto di partenza."
  | .errBadFields => .err400 "Controlla i valori inseriti. Formato data: GG/MM/AAAA."
  | .proceed a =>
    let (fl, ev) := run a
    .okSearch fl ev

/-- First event of the streaming endpoint, as far as the claims need it:
an empty origin list is answered with a plain 400 JSON error before the
event stream (and hence any backend call) starts. -/
def api_search_stream (payload : Payload)
    (run : SearchArgs → List Flight × Bool) : ApiResult :=
  match apiSearchStreamCheck payload with
  | .errEmptyOrigins => .err400 "Seleziona almeno un aeroporto di partenza."
  | .errBadFields => .err400 "Controlla i valori inseriti. Formato data: GG/MM/AAAA."
  | .proceed a =>
    let (fl, ev) := run a
    .okSearch fl ev

/-! Concrete fixtures used by the counterexample and witness theorems. -/

def originEx : Airport := { skyId := "VCE" }

def cityEx : City :=
  { name := "London", skyCode := "LOND", country := some "United Kingdom" }

def legC1 : Leg :=
  { departure := .valid ⟨2026, 2, 6, 8, 0⟩
    arrival := .valid ⟨2026, 2, 6, 15, 0⟩
    durationInMinutes := 420
    origin := { displayCode := some "VCE" }
    destination := { city := some "London", country := some "United Kingdom",
                     displayCode := some "LON" } }

def itemC1 : Item := { id := "it-1", price := some 50, legs := some [legC1] }

def respC1 : FlightResponse := { buckets := [[itemC1]] }

/-- An arrival window of 10:00-12:00; `legC1` arrives at 15:00. -/
def paramsC1 : Params :=
  { max_price := 200, min_arrival_hour := 10, max_arrival_hour := 12 }

/-- The record the builder emits for `itemC1` (arrival 15:00). -/
def flightC1 : Flight :=
  { citta := "London", paese := "United Kingdom", codice_dest := "LON",
    codice_origine := "VCE", prezzo := 50, partenza := "08:00",
    arrivo := "15:00", durata := "7h 00min", durata_min := 420, scali := 0,
    stopovers := [], compagnia := "N/A", logo_url := some "" }

def segA : Segment :=
  { destination := { city := some "Zurich", displayCode := some "ZRH" }
    arrival := .malformed "Z026-02-06T10:00"
    departure := .valid ⟨2026, 2, 6, 8, 0⟩ }

def segB : Segment :=
  { departure := .valid ⟨2026, 2, 6, 11, 0⟩, arrival := .valid ⟨2026, 2, 6, 13, 0⟩ }

def legC3 : Leg :=
  { departure := .valid ⟨2026, 2, 6, 8, 0⟩
    arrival := .valid ⟨2026, 2, 6, 13, 0⟩
    stopCount := 1
    durationInMinutes := 300
    segments := [segA, segB] }

def itemC3 : Item := { id := "it-3", price := some 40, legs := some [legC3] }

def respC3 : FlightResponse := { buckets := [[itemC3]] }

def paramsC3 : Params := { max_price := 100 }

/-- A backend whose lookup of country code "BAD" raises, while country
"FR" resolves and yields one in-budget city. -/
def scC2 : Scanner :=
  { search_airports := fun code =>
      if code = "BAD" then .error .valueError
      else if code = "FR" then .ok [{ skyId := "FR" }]
      else .ok []
    get_flight_prices := fun _o d =>
      if d = "FR" then
        .ok { countryResults :=
                [{ name := some "Paris", skyCode := some "PARI",
                   rawPrice := some 50 }] }
      else .ok {} }

def countryBad : Country := { name := "Badland", skyCode := "BAD" }

def countryFR : Country := { name := "France", skyCode := "FR" }

def cityParis : City :=
  { name := "Paris", skyCode := "PARI", country := some "France" }

/-- A country whose place lookup returns an empty result set under `scC2`. -/
def countryEmpty : Country := { name := "Nowhere", skyCode := "XX" }

/-- A cheaper flight with the same composite key as `flightC1`. -/
def flightC5 : Flight := { flightC1 with prezzo := 30 }

def exF80 : Flight := { flightC1 with prezzo := 80 }

def exF30 : Flight := { flightC1 with prezzo := 30 }

def exF150 : Flight := { flightC1 with prezzo := 150 }

def exFlights : List Flight := [exF80, exF30, exF150]

def payloadC9 : Payload := { origins := [] }

def runEx : SearchArgs → List Flight × Bool := fun _ => ([], true)

def payloadC10 : Payload :=
  { origins := [.strItem "VCE"]
    depart_date := some (.str "06/02/2026")
    max_price := some (.num 100) }

def argsC10 : SearchArgs :=
  { origin_codes := ["VCE"], dest_items := [], dest_codes := []
    search_everywhere := true
    depart_date := { year := 2026, month := 2, day := 6, hour := 0, minute := 0 }
    p := { max_price := 100 }
    sort_key := "prezzo" }

/-- An overnight leg: departs 22:00, arrives 01:00 the next day. -/
def legON : Leg :=
  { departure := .valid ⟨2026, 2, 6, 22, 0⟩, arrival := .valid ⟨2026, 2, 7, 1, 0⟩ }

def itemON : Item := { id := "on-1", price := some 20, legs := some [legON] }

def paramsC4 : Params := { max_price := 200 }

/-- Two raw items sharing the id of `itemC1` (one cheaper, in a second
bucket). -/
def itemC7 : Item := { id := "it-1", price := some 20, legs := some [legC1] }

def respC7 : FlightResponse := { buckets := [[itemC1], [itemC7]] }

/-- First-occurrence id dedup, mirroring the `voli_visti` skip of a pass. -/
def dedupFrom (visti : List String) : List Item → List Item
  | [] => []
  | it :: rest =>
    if it.id ∈ visti then dedupFrom visti rest
    else it :: dedupFrom (it.id :: visti) rest

/-- The ledger invariant of the claims: every aggregate-list entry's key
maps back to its index, and every mapped key points at an entry bearing
that key. -/
def LedgerInv (voli : List Flight) (keys : Ledger) : Prop :=
  (∀ i f, voli[i]? = some f → lookupKey keys (mkKey f) = some i) ∧
  (∀ k i, lookupKey keys k = some i → ∃ f, voli[i]? = some f ∧ mkKey f = k)

/-- The sort key actually applied by `sort_flights` for a given `sort_key`
string. -/
def leFor (k : String) (a b : Flight) : Bool :=
  if k = "orario" then a.partenza ≤ b.partenza
  else if k = "durata" then a.durata_min ≤ b.durata_min
  else a.prezzo ≤ b.prezzo

/-- One country's backend interaction in the drill-down fails (either the
place lookup or the flight query raises). -/
def countryFails (sc : Scanner) (o : Airport) (c : Country) : Prop :=
  (∃ e, sc.search_airports c.skyCode = .error e) ∨
  (∃ a0 rest, sc.search_airports c.skyCode = .ok (a0 :: rest) ∧
    ∃ e, sc.get_flight_prices o.skyId
        ((((a0 :: rest).find? (fun a => a.skyId = c.skyCode)).getD a0)).skyId =
      .error e)

/-- One pass of the builder, instrumented: identical control flow to
`runPass`, but each ledger *append* (the `lookupKey ... = none` branch of
`ledgerStep`) additionally records the id of the raw item that caused it.
`runPassT_fst` proves the first component is exactly `runPass`, so this
is an annotation of the source's pass, not a variant of it. -/
def runPassT (ca : Bool) (p : Params) (o : Airport) (c : City) :
    List Item → List String → List Flight → Ledger →
    Except PyErr (List Flight × Ledger) × List String
  | [], _, voli, keys => (.ok (voli, keys), [])
  | item :: rest, visti, voli, keys =>
    if item.id ∈ visti then runPassT ca p o c rest visti voli keys
    else
      match processItem ca p o c item with
      | .error e => (.error e, [])
      | .ok none => runPassT ca p o c rest (item.id :: visti) voli keys
      | .ok (some flight) =>
        match ledgerStep voli keys flight with
        | .error e => (.error e, [])
        | .ok (v, k) =>
          let r := runPassT ca p o c rest (item.id :: visti) v k
          match lookupKey keys (mkKey flight) with
          | some _ => r
          | none => (r.1, item.id :: r.2)

/-- The two passes of `process_flight_response`, instrumented with the
append trace: the first component is the builder's result
(`processTrace_spec`), the second lists the causing item id of every
record appended to the aggregate list during the call. -/
def processTrace (resp : FlightResponse) (o : Airport) (c : City)
    (p : Params) (voli : List Flight) (keys : Ledger) :
    Except PyErr (List Flight × Ledger) × List String :=
  match runPassT true p o c (allItems resp) [] voli keys with
  | (.error e, _) => (.error e, [])
  | (.ok (v1, k1), t1) =>
    let r2 := runPassT false p o c (allItems resp) [] v1 k1
    (r2.1, t1 ++ r2.2)

/-! Theorems. -/

/-- Claim C1 (code bug): the second pass of `process_flight_response`
(`src/app.py` lines 282-397) re-walks the response without the
arrival-window check of the first pass (lines 186-191), so with an
arrival window of 10:00-12:00 a flight arriving 15:00 — rejected by the
first pass — is appended to the aggregate list by the second pass: the
emitted record's arrival minute-of-day (900) exceeds
`max_arrival_hour * 60 = 720`. -/
theorem arrival_window_bypassed_in_second_pass :
    process_flight_response respC1 originEx cityEx paramsC1 [] [] =
      .ok ([flightC1], [("VCE-LON-08:00-N/A", 0)]) ∧
    flightC1.arrivo = "15:00" ∧
    (15 * 60 : Int) > paramsC1.max_arrival_hour * 60 ∧
    runPass true paramsC1 originEx cityEx (allItems respC1) [] [] [] =
      .ok ([], []) :=
  ⟨rfl, rfl, by decide, rfl⟩

/-- Claim C3 (code bug): for an itinerary with a malformed (non-empty,
non-ISO) segment arrival timestamp, stopover computation raises
`ValueError`: the guarded wait computation tolerates the string, but the
`arrivo` field re-parses it outside the `try/except`
(`src/app.py` line 236), aborting the whole response. -/
theorem malformed_stopover_timestamp_raises :
    process_flight_response respC3 originEx cityEx paramsC3 [] [] =
      .error .valueError ∧
    segA.arrival = .malformed "Z026-02-06T10:00" :=
  ⟨rfl, rfl⟩

/-- Claim C2 (counterexample): in `search_everywhere_multi`
(`src/app.py` lines 441-500) a failing country lookup aborts the whole
drill-down — the loop does not continue with the remaining countries and
returns no partial result — whereas the same backend run through the
`cerca_voli.py` drill-down (which catches per-country failures) yields
the surviving country's city. -/
theorem country_failure_aborts_app_search :
    appCountryLoop scC2 originEx 100 [countryBad, countryFR] [] =
      .error .valueError ∧
    cercaCountryLoop scC2 originEx 100 [countryBad, countryFR] = [cityParis] :=
  ⟨rfl, rfl⟩

/-- Claim C9: a request whose origin list is empty after normalization
and code dedup is answered by both search endpoints with the
origin-validation error, independently of `run` — which encapsulates
`build_scanner()` and every backend interaction — so the error is
produced before any backend call. -/
theorem empty_origins_validation (payload : Payload)
    (h : dedupe_codes (normalize_selected_locations payload.origins) = []) :
    ∀ run, api_search payload run =
        .err400 "Seleziona almeno un aeroporto di partenza." ∧
      api_search_stream payload run =
        .err400 "Seleziona almeno un aeroporto di partenza." := by
  intro run
  constructor <;>
    simp [api_search, api_search_stream, apiSearchCheck, apiSearchStreamCheck,
      requestCheck, h]

/-- Claim C9 witness: the empty-origins payload is rejected. -/
theorem empty_origins_validation_witness :
    dedupe_codes (normalize_selected_locations payloadC9.origins) = [] ∧
    api_search payloadC9 runEx =
      .err400 "Seleziona almeno un aeroporto di partenza." := by
  refine ⟨by decide, ?_⟩
  exact (empty_origins_validation payloadC9 (by decide) runEx).1

theorem sort_flights_eq_mergeSort (l : List Flight) (k : String) :
    sort_flights l k = l.mergeSort (leFor k) := by
  unfold sort_flights
  by_cases h1 : k = "orario"
  · rw [if_pos h1]; congr 1; funext a b; simp [leFor, h1]
  · rw [if_neg h1]
    by_cases h2 : k = "durata"
    · rw [if_pos h2]; congr 1; funext a b; simp [leFor, h1, h2]
    · rw [if_neg h2]; congr 1; funext a b; simp [leFor, h1, h2]

theorem leFor_trans (k : String) (a b c : Flight) (hab : leFor k a b = true)
    (hbc : leFor k b c = true) : leFor k a c = true := by
  by_cases h1 : k = "orario" <;> by_cases h2 : k = "durata" <;>
    simp [leFor, h1, h2] at hab hbc ⊢ <;> exact le_trans hab hbc

theorem leFor_total (k : String) (a b : Flight) :
    (leFor k a b || leFor k b a) = true := by
  by_cases h1 : k = "orario" <;> by_cases h2 : k = "durata" <;>
    simp [leFor, h1, h2] <;> exact le_total _ _

/-- Claim C8: `sort_flights` returns a permutation of its input that is
pairwise ascending in the selected key (`leFor`), the sort is stable
(any sublist already in order is preserved as a sublist of the output,
`List.sublist_mergeSort`'s formulation), and every sort key other than
"orario" and "durata" produces exactly the price sort. -/
theorem sort_flights_spec (l : List Flight) (k : String) :
    (sort_flights l k).Perm l ∧
    List.Pairwise (fun a b => leFor k a b = true) (sort_flights l k) ∧
    (∀ c : List Flight, c.Sublist l →
      List.Pairwise (fun a b => leFor k a b = true) c →
      c.Sublist (sort_flights l k)) ∧
    (k ≠ "orario" → k ≠ "durata" → sort_flights l k = sort_flights l "prezzo") := by
  have he := sort_flights_eq_mergeSort l k
  refine ⟨?_, ?_, ?_, ?_⟩
  · rw [he]; exact l.mergeSort_perm (leFor k)
  · rw [he]; exact List.sorted_mergeSort (leFor_trans k) (leFor_total k) l
  · intro c hsub hpw
    rw [he]
    exact List.sublist_mergeSort (leFor_trans k) (leFor_total k) hpw hsub
  · intro h1 h2
    simp [sort_flights, h1, h2]

/-- Claim C8 witness: on prices [80, 30, 150] an unknown sort key behaves
exactly like the price sort, which yields the ascending [30, 80, 150]. -/
theorem sort_flights_spec_witness :
    (sort_flights exFlights "xyz").Perm exFlights ∧
    sort_flights exFlights "xyz" = sort_flights exFlights "prezzo" ∧
    sort_flights exFlights "prezzo" = [exF30, exF80, exF150] := by
  refine ⟨(sort_flights_spec exFlights "xyz").1, ?_, ?_⟩
  · exact (sort_flights_spec exFlights "xyz").2.2.2 (by decide) (by decide)
  · show (List.mergeSort [exF80, exF30, exF150]
      fun a b => decide (a.prezzo ≤ b.prezzo)) = _
    simp [List.mergeSort, List.merge, List.splitInTwo, exF80, exF30, exF150,
      flightC1]

theorem lookupKey_append_some {keys : Ledger} {k : String} {i : Nat}
    (h : lookupKey keys k = some i) (l : Ledger) :
    lookupKey (keys ++ l) k = some i := by
  induction keys with
  | nil => simp [lookupKey] at h
  | cons kv rest ih =>
    rw [List.cons_append, lookupKey]
    rw [lookupKey] at h
    by_cases hk : kv.1 = k
    · simpa [hk] using h
    · rw [if_neg hk] at h ⊢
      exact ih h

theorem lookupKey_append_none {keys : Ledger} {k : String}
    (h : lookupKey keys k = none) (k' : String) (v : Nat) :
    lookupKey (keys ++ [(k', v)]) k = if k' = k then some v else none := by
  induction keys with
  | nil => simp [lookupKey]
  | cons kv rest ih =>
    rw [lookupKey] at h
    rw [List.cons_append, lookupKey]
    by_cases hk : kv.1 = k
    · rw [if_pos hk] at h; exact absurd h (by simp)
    · rw [if_neg hk] at h ⊢
      exact ih h

theorem lookupKey_append_cases {keys : Ledger} {k k0 : String} {i v0 : Nat}
    (h : lookupKey (keys ++ [(k0, v0)]) k = some i) :
    lookupKey keys k = some i ∨
      (lookupKey keys k = none ∧ k0 = k ∧ i = v0) := by
  induction keys with
  | nil =>
    right
    rw [List.nil_append, lookupKey] at h
    by_cases hk : k0 = k
    · rw [if_pos hk] at h
      exact ⟨rfl, hk, by simpa using h.symm⟩
    · rw [if_neg hk] at h
      simp [lookupKey] at h
  | cons kv rest ih =>
    rw [List.cons_append, lookupKey] at h
    rw [lookupKey]
    by_cases hk : kv.1 = k
    · rw [if_pos hk] at h ⊢
      exact Or.inl h
    · rw [if_neg hk] at h ⊢
      exact ih h

/-- Claim C5: on key collision the ledger keeps only the lower-priced of
the colliding record and the incumbent, the survivor occupies the
incumbent's original position, all other entries and the key map are
untouched; with no collision the record is appended and its key is
mapped to the new index. -/
theorem ledger_merge_behavior (voli : List Flight) (keys : Ledger) (f : Flight) :
    (∀ idx old, lookupKey keys (mkKey f) = some idx → voli[idx]? = some old →
      ∃ voli', ledgerStep voli keys f = .ok (voli', keys) ∧
        voli'.length = voli.length ∧
        voli'[idx]? = some (if f.prezzo < old.prezzo then f else old) ∧
        ∀ j, j ≠ idx → voli'[j]? = voli[j]?) ∧
    (lookupKey keys (mkKey f) = none →
      ledgerStep voli keys f =
        .ok (voli ++ [f], keys ++ [(mkKey f, voli.length)]) ∧
      lookupKey (keys ++ [(mkKey f, voli.length)]) (mkKey f) =
        some voli.length ∧
      (voli ++ [f])[voli.length]? = some f) := by
  constructor
  · intro idx old hl ho
    have hidx : idx < voli.length := by
      by_contra hge
      rw [List.getElem?_eq_none (Nat.le_of_not_lt hge)] at ho
      exact Option.noConfusion ho
    by_cases hp : f.prezzo < old.prezzo
    · refine ⟨voli.set idx f, ?_, List.length_set voli idx f, ?_, ?_⟩
      · simp only [ledgerStep, hl, ho]
        rw [if_pos hp]
      · rw [if_pos hp]
        exact List.getElem?_set_self hidx
      · intro j hj
        exact List.getElem?_set_ne (fun h => hj h.symm)
    · refine ⟨voli, ?_, rfl, ?_, fun _ _ => rfl⟩
      · simp only [ledgerStep, hl, ho]
        rw [if_neg hp]
      · rw [if_neg hp]; exact ho
  · intro hl
    refine ⟨by simp only [ledgerStep, hl], ?_, List.getElem?_concat_length voli f⟩
    rw [lookupKey_append_none hl, if_pos rfl]

/-- Claim C5 witness: a cheaper record with the key of `flightC1`
replaces it in place. -/
theorem ledger_merge_behavior_witness :
    lookupKey [(mkKey flightC1, 0)] (mkKey flightC5) = some 0 ∧
    ∃ voli', ledgerStep [flightC1] [(mkKey flightC1, 0)] flightC5 =
        .ok (voli', [(mkKey flightC1, 0)]) ∧
      voli'.length = [flightC1].length ∧
      voli'[0]? = some (if flightC5.prezzo < flightC1.prezzo
                        then flightC5 else flightC1) ∧
      ∀ j, j ≠ 0 → voli'[j]? = [flightC1][j]? := by
  refine ⟨by decide, ?_⟩
  exact (ledger_merge_behavior [flightC1] [(mkKey flightC1, 0)] flightC5).1
    0 flightC1 (by decide) (by decide)

theorem ledgerInv_inj {voli : List Flight} {keys : Ledger}
    (h : LedgerInv voli keys) :
    ∀ (i j : Nat) (fi fj : Flight), voli[i]? = some fi → voli[j]? = some fj →
      mkKey fi = mkKey fj → i = j := by
  intro i j fi fj hi hj he
  have h1 := h.1 i fi hi
  have h2 := h.1 j fj hj
  rw [he] at h1
  exact Option.some.inj (h1.symm.trans h2)

theorem getElem?_lt_length {α : Type} {l : List α} {i : Nat} {a : α}
    (h : l[i]? = some a) : i < l.length := by
  by_contra hge
  rw [List.getElem?_eq_none (Nat.le_of_not_lt hge)] at h
  exact Option.noConfusion h

theorem ledgerStep_inv {voli : List Flight} {keys : Ledger}
    (h : LedgerInv voli keys) (f : Flight) :
    ∃ v' k', ledgerStep voli keys f = .ok (v', k') ∧ LedgerInv v' k' := by
  cases hl : lookupKey keys (mkKey f) with
  | none =>
    refine ⟨voli ++ [f], keys ++ [(mkKey f, voli.length)],
      by simp only [ledgerStep, hl], ?_, ?_⟩
    · intro i g hg
      by_cases hi : i < voli.length
      · rw [List.getElem?_append, if_pos hi] at hg
        exact lookupKey_append_some (h.1 i g hg) _
      · rw [List.getElem?_append, if_neg hi] at hg
        have hlen : i - voli.length < [f].length := getElem?_lt_length hg
        simp only [List.length_singleton] at hlen
        have hi' : i = voli.length := by omega
        have hz : i - voli.length = 0 := by omega
        rw [hz] at hg
        simp at hg
        subst hg
        rw [hi', lookupKey_append_none hl, if_pos rfl]
    · intro k i hk
      rcases lookupKey_append_cases hk with hk' | ⟨_, hkk, hiv⟩
      · obtain ⟨g, hg, hkey⟩ := h.2 k i hk'
        refine ⟨g, ?_, hkey⟩
        rw [List.getElem?_append, if_pos (getElem?_lt_length hg)]
        exact hg
      · subst hiv
        exact ⟨f, List.getElem?_concat_length voli f, hkk⟩
  | some idx =>
    obtain ⟨g, hg, hkey⟩ := h.2 (mkKey f) idx hl
    by_cases hp : f.prezzo < g.prezzo
    · refine ⟨voli.set idx f, keys,
        by simp only [ledgerStep, hl, hg]; rw [if_pos hp], ?_, ?_⟩
      · intro i g' hg'
        by_cases hi : idx = i
        · subst hi
          rw [List.getElem?_set_self (getElem?_lt_length hg)] at hg'
          have := Option.some.inj hg'
          subst this
          exact hl
        · rw [List.getElem?_set_ne hi] at hg'
          exact h.1 i g' hg'
      · intro k i hk
        obtain ⟨g', hg', hkey'⟩ := h.2 k i hk
        by_cases hi : idx = i
        · subst hi
          refine ⟨f, List.getElem?_set_self (getElem?_lt_length hg), ?_⟩
          have : g' = g := Option.some.inj (hg'.symm.trans hg)
          subst this
          rw [← hkey', hkey]
        · exact ⟨g', by rw [List.getElem?_set_ne hi]; exact hg', hkey'⟩
    · exact ⟨voli, keys,
        by simp only [ledgerStep, hl, hg]; rw [if_neg hp], h⟩

theorem runPass_inv (ca : Bool) (p : Params) (o : Airport) (c : City) :
    ∀ (items : List Item) (visti : List String) (voli : List Flight)
      (keys : Ledger) (v' : List Flight) (k' : Ledger),
      LedgerInv voli keys →
      runPass ca p o c items visti voli keys = .ok (v', k') →
      LedgerInv v' k' := by
  intro items
  induction items with
  | nil =>
    intro visti voli keys v' k' h hr
    rw [runPass] at hr
    cases hr
    exact h
  | cons it rest ih =>
    intro visti voli keys v' k' h hr
    rw [runPass] at hr
    by_cases hv : it.id ∈ visti
    · rw [if_pos hv] at hr
      exact ih visti voli keys v' k' h hr
    · rw [if_neg hv] at hr
      cases hpi : processItem ca p o c it with
      | error e => simp only [hpi] at hr; cases hr
      | ok of =>
        simp only [hpi] at hr
        cases of with
        | none => exact ih _ voli keys v' k' h hr
        | some flight =>
          obtain ⟨v, k, hstep, hinv⟩ := ledgerStep_inv h flight
          simp only [hstep] at hr
          exact ih _ v k v' k' hinv hr

/-- Claim C6: starting from a state satisfying the ledger invariant,
every single ledger operation and every full run of the flight-record
builder preserve it: each list entry's composite key maps back to its
own index, each mapped key points at an entry bearing it, and hence no
two entries of the aggregate list share a composite key. -/
theorem ledger_invariant_preserved (voli : List Flight) (keys : Ledger)
    (h : LedgerInv voli keys) :
    (∀ f : Flight, ∃ v' k', ledgerStep voli keys f = .ok (v', k') ∧
      LedgerInv v' k' ∧
      ∀ (i j : Nat) (fi fj : Flight), v'[i]? = some fi → v'[j]? = some fj →
        mkKey fi = mkKey fj → i = j) ∧
    (∀ resp o c p (v' : List Flight) (k' : Ledger),
      process_flight_response resp o c p voli keys = .ok (v', k') →
      LedgerInv v' k' ∧
      ∀ (i j : Nat) (fi fj : Flight), v'[i]? = some fi → v'[j]? = some fj →
        mkKey fi = mkKey fj → i = j) := by
  constructor
  · intro f
    obtain ⟨v', k', hstep, hinv⟩ := ledgerStep_inv h f
    exact ⟨v', k', hstep, hinv, ledgerInv_inj hinv⟩
  · intro resp o c p v' k' hr
    rw [process_flight_response] at hr
    cases h1 : runPass true p o c (allItems resp) [] voli keys with
    | error e => rw [h1] at hr; cases hr
    | ok vk =>
      rw [h1] at hr
      have hinv1 := runPass_inv true p o c (allItems resp) [] voli keys
        vk.1 vk.2 h h1
      have hinv2 := runPass_inv false p o c (allItems resp) [] vk.1 vk.2
        v' k' hinv1 hr
      exact ⟨hinv2, ledgerInv_inj hinv2⟩

/-- Claim C6 witness: from the empty search state, inserting `flightC1`
and running the builder on `respC1` both preserve the invariant. -/
theorem ledger_invariant_preserved_witness :
    ∃ v' k', ledgerStep [] [] flightC1 = .ok (v', k') ∧
      LedgerInv v' k' ∧
      ∀ (i j : Nat) (fi fj : Flight), v'[i]? = some fi → v'[j]? = some fj →
        mkKey fi = mkKey fj → i = j :=
  (ledger_invariant_preserved [] []
    ⟨fun i f hf => by simp at hf, fun k i hk => by simp [lookupKey] at hk⟩).1
    flightC1

theorem fromisoformat_ok {t : TStr} {d : PyDateTime}
    (h : fromisoformat t = .ok d) : t = .valid d := by
  cases t <;> simp_all [fromisoformat]

theorem processItem_same_day_reject (ca : Bool) (p : Params) (o : Airport)
    (c : City) (item : Item) (leg : Leg) (rest : List Leg)
    (dep arr : PyDateTime) (hsd : p.same_day = true)
    (hlegs : itemLegs item = leg :: rest)
    (hdep : fromisoformat leg.departure = .ok dep)
    (harr : fromisoformat leg.arrival = .ok arr)
    (hne : dateOf arr ≠ dateOf dep) :
    processItem ca p o c item = .ok none := by
  have hd := fromisoformat_ok hdep
  have ha := fromisoformat_ok harr
  simp [processItem, hlegs, hd, ha, fromisoformat, hsd, hne]

/-- Claim C4: every Flight Record the builder's per-item function emits
satisfies the record invariant: its price is at most the ceiling, a set
direct-only flag forces stop count 0, and a set same-day flag forces the
record's underlying arrival date to equal its departure date (the record
itself carries the corresponding HH:MM renderings). -/
theorem builder_record_invariant (ca : Bool) (p : Params) (o : Airport)
    (c : City) (item : Item) (f : Flight)
    (h : processItem ca p o c item = .ok (some f)) :
    f.prezzo ≤ p.max_price ∧
    (p.direct_only = true → f.scali = 0) ∧
    (p.same_day = true →
      ∃ leg rest dep arr, itemLegs item = leg :: rest ∧
        fromisoformat leg.departure = .ok dep ∧
        fromisoformat leg.arrival = .ok arr ∧
        dateOf arr = dateOf dep ∧ f.partenza = strftimeHM dep ∧
        f.arrivo = strftimeHM arr) := by
  simp only [processItem] at h
  split at h
  · exact absurd h (by simp)
  next hprice =>
  split at h
  · exact absurd h (by simp)
  next leg tail hlegs =>
  split at h
  · exact absurd h (by simp)
  next hempty =>
  split at h
  · exact absurd h (by simp)
  next dep hdep =>
  split at h
  · exact absurd h (by simp)
  next arr harr =>
  split at h
  · exact absurd h (by simp)
  next hdepw =>
  split at h
  · exact absurd h (by simp)
  next harrw =>
  split at h
  · exact absurd h (by simp)
  next hsame =>
  split at h
  · exact absurd h (by simp)
  next hdirect =>
  split at h
  · exact absurd h (by simp)
  next stopovers hstop =>
  injection h with h1
  injection h1 with h2
  subst h2
  refine ⟨?_, ?_, ?_⟩
  · show (item.price.getD 999999 : Int) ≤ p.max_price
    omega
  · intro hd
    simp only [hd, true_and] at hdirect
    simpa using hdirect
  · intro hsd
    refine ⟨leg, tail, dep, arr, hlegs, hdep, harr, ?_, rfl, rfl⟩
    by_contra hne
    exact hsame ⟨hsd, hne⟩

/-- Claim C4 witness: the record emitted for `itemC1` under `paramsC4`
satisfies the invariant. -/
theorem builder_record_invariant_witness :
    flightC1.prezzo ≤ paramsC4.max_price ∧
    (paramsC4.direct_only = true → flightC1.scali = 0) ∧
    (paramsC4.same_day = true →
      ∃ leg rest dep arr, itemLegs itemC1 = leg :: rest ∧
        fromisoformat leg.departure = .ok dep ∧
        fromisoformat leg.arrival = .ok arr ∧
        dateOf arr = dateOf dep ∧ flightC1.partenza = strftimeHM dep ∧
        flightC1.arrivo = strftimeHM arr) :=
  builder_record_invariant true paramsC4 originEx cityEx itemC1 flightC1 rfl

/-- Claim C10: when the `same_day` field is absent from the payload, both
endpoints proceed with the same-day filter enabled (`bool` default
`True`), and with that flag enabled the builder rejects every itinerary
whose arrival date differs from its departure date. -/
theorem same_day_default_true (payload : Payload)
    (hsd : payload.same_day = none) :
    (∀ a, apiSearchCheck payload = .proceed a → a.p.same_day = true) ∧
    (∀ a, apiSearchStreamCheck payload = .proceed a → a.p.same_day = true) ∧
    (∀ (q : Params) (ca : Bool) (o : Airport) (c : City) (item : Item)
        (leg : Leg) (rest : List Leg) (dep arr : PyDateTime),
      q.same_day = true → itemLegs item = leg :: rest →
      fromisoformat leg.departure = .ok dep →
      fromisoformat leg.arrival = .ok arr →
      dateOf arr ≠ dateOf dep →
      processItem ca q o c item = .ok none) := by
  have hmain : ∀ a, requestCheck payload = .proceed a → a.p.same_day = true := by
    intro a h
    simp only [requestCheck, hsd] at h
    split at h
    · cases h
    split at h
    · cases h
    split at h
    · cases h
    split at h
    · cases h
    split at h
    · cases h
    split at h
    · cases h
    split at h
    · cases h
    split at h
    · cases h
    injection h with h1
    subst h1
    rfl
  exact ⟨hmain, hmain,
    fun q ca o c item leg rest dep arr h1 h2 h3 h4 h5 =>
      processItem_same_day_reject ca q o c item leg rest dep arr h1 h2 h3 h4 h5⟩

/-- Claim C10 witness: `payloadC10` (no `same_day` field) proceeds with
the flag enabled and the overnight itinerary `itemON` is rejected. -/
theorem same_day_default_true_witness :
    apiSearchCheck payloadC10 = .proceed argsC10 ∧
    argsC10.p.same_day = true ∧
    processItem true argsC10.p originEx cityEx itemON = .ok none := by
  have h := same_day_default_true payloadC10 rfl
  refine ⟨by decide, h.1 argsC10 (by decide), ?_⟩
  exact h.2.2 argsC10.p true originEx cityEx itemON legON []
    ⟨2026, 2, 6, 22, 0⟩ ⟨2026, 2, 7, 1, 0⟩ rfl rfl rfl rfl (by decide)

/-- Claim C2 (amended): only `cerca_voli.py`'s drill-down tolerates a
failing country — the failing country contributes zero cities and the
loop continues over the surrounding countries — while
`search_everywhere_multi` in `src/app.py` tolerates only an *empty*
lookup result (skipping the country); a raised backend error there
aborts the whole search (see the counterexample). -/
theorem country_failure_tolerance_amended (sc : Scanner) (o : Airport)
    (mp : Int) (c : Country) (pre post : List Country) :
    (countryFails sc o c →
      cercaCountryLoop sc o mp (pre ++ c :: post) =
        cercaCountryLoop sc o mp pre ++ cercaCountryLoop sc o mp post) ∧
    (sc.search_airports c.skyCode = .ok [] →
      ∀ fo acc, appCountryLoop sc fo mp (pre ++ c :: post) acc =
        appCountryLoop sc fo mp (pre ++ post) acc) := by
  constructor
  · intro hf
    have hstep : cercaCountryStep sc o mp c = [] := by
      rcases hf with ⟨e, he⟩ | ⟨a0, rest, hok, e, he⟩
      · simp [cercaCountryStep, he]
      · simp [cercaCountryStep, hok, he]
    simp [cercaCountryLoop, hstep]
  · intro hok fo
    have key : ∀ a, appCountryLoop sc fo mp (c :: post) a =
        appCountryLoop sc fo mp post a := by
      intro a
      rw [appCountryLoop]
      simp only [appCountryStep, hok]
    intro acc
    induction pre generalizing acc with
    | nil => simpa using key acc
    | cons p ps ih =>
      rw [List.cons_append, List.cons_append, appCountryLoop, appCountryLoop]
      cases hs : appCountryStep sc fo mp acc p with
      | error e => simp only [hs]
      | ok acc' => simp only [hs]; exact ih acc'

/-- Claim C2 amended witness: under `scC2` the failing country `countryBad`
contributes zero cities to the `cerca_voli` drill-down, and an
empty-lookup country is skipped by the app drill-down. -/
theorem country_failure_tolerance_amended_witness :
    countryFails scC2 originEx countryBad ∧
    cercaCountryLoop scC2 originEx 100 ([countryFR] ++ countryBad :: []) =
      cercaCountryLoop scC2 originEx 100 [countryFR] ++
        cercaCountryLoop scC2 originEx 100 [] ∧
    appCountryLoop scC2 originEx 100 ([countryFR] ++ countryEmpty :: []) [] =
      appCountryLoop scC2 originEx 100 ([countryFR] ++ []) [] := by
  have hf : countryFails scC2 originEx countryBad := Or.inl ⟨.valueError, rfl⟩
  refine ⟨hf, ?_, ?_⟩
  · exact (country_failure_tolerance_amended scC2 originEx 100 countryBad
      [countryFR] []).1 hf
  · exact (country_failure_tolerance_amended scC2 originEx 100 countryEmpty
      [countryFR] []).2 rfl originEx []

theorem runPass_dedupFrom (ca : Bool) (p : Params) (o : Airport) (c : City) :
    ∀ (items : List Item) (visti : List String) (voli : List Flight)
      (keys : Ledger),
      runPass ca p o c items visti voli keys =
        runPass ca p o c (dedupFrom visti items) visti voli keys := by
  intro items
  induction items with
  | nil => intro visti voli keys; rfl
  | cons it rest ih =>
    intro visti voli keys
    rw [dedupFrom]
    by_cases hv : it.id ∈ visti
    · rw [if_pos hv, runPass, if_pos hv]
      exact ih visti voli keys
    · rw [if_neg hv]
      cases hpi : processItem ca p o c it with
      | error e =>
        conv_lhs => rw [runPass]
        conv_rhs => rw [runPass]
        simp only [if_neg hv, hpi]
      | ok of =>
        cases of with
        | none =>
          conv_lhs => rw [runPass]
          conv_rhs => rw [runPass]
          simp only [if_neg hv, hpi]
          exact ih _ voli keys
        | some flight =>
          cases hs : ledgerStep voli keys flight with
          | error e =>
            conv_lhs => rw [runPass]
            conv_rhs => rw [runPass]
            simp only [if_neg hv, hpi, hs]
          | ok vk =>
            obtain ⟨v, k⟩ := vk
            conv_lhs => rw [runPass]
            conv_rhs => rw [runPass]
            simp only [if_neg hv, hpi, hs]
            exact ih _ v k

theorem ledgerStep_anatomy {voli : List Flight} {keys : Ledger} {f : Flight}
    {v : List Flight} {k : Ledger} (h : ledgerStep voli keys f = .ok (v, k)) :
    (∃ idx old, lookupKey keys (mkKey f) = some idx ∧ voli[idx]? = some old ∧
      k = keys ∧ v.length = voli.length) ∨
    (lookupKey keys (mkKey f) = none ∧ v = voli ++ [f] ∧
      k = keys ++ [(mkKey f, voli.length)]) := by
  simp only [ledgerStep] at h
  cases hl : lookupKey keys (mkKey f) with
  | none =>
    simp only [hl] at h
    simp only [Except.ok.injEq, Prod.mk.injEq] at h
    exact Or.inr ⟨rfl, h.1.symm, h.2.symm⟩
  | some idx =>
    simp only [hl] at h
    cases ho : voli[idx]? with
    | none => simp only [ho] at h; cases h
    | some old =>
      simp only [ho] at h
      split at h <;> simp only [Except.ok.injEq, Prod.mk.injEq] at h
      · exact Or.inl ⟨idx, old, rfl, ho, h.2.symm, by rw [← h.1]; simp⟩
      · exact Or.inl ⟨idx, old, rfl, ho, h.2.symm, by rw [← h.1]⟩

theorem processItem_pass2 (p : Params) (o : Airport) (c : City) (item : Item)
    (f : Flight) (h : processItem true p o c item = .ok (some f)) :
    processItem false p o c item = .ok (some f) := by
  simp only [processItem] at h ⊢
  split at h
  · exact absurd h (by simp)
  next hprice =>
  split at h
  · exact absurd h (by simp)
  next leg tail hlegs =>
  split at h
  · exact absurd h (by simp)
  next hempty =>
  split at h
  · exact absurd h (by simp)
  next dep hdep =>
  split at h
  · exact absurd h (by simp)
  next arr harr =>
  split at h
  · exact absurd h (by simp)
  next hdepw =>
  split at h
  · exact absurd h (by simp)
  next harrw =>
  split at h
  · exact absurd h (by simp)
  next hsame =>
  split at h
  · exact absurd h (by simp)
  next hdirect =>
  split at h
  · exact absurd h (by simp)
  next stopovers hstop =>
  rw [if_neg hprice, if_neg hempty, if_neg hdepw]
  simp only [Bool.false_eq_true, false_and]
  rw [if_neg not_false, if_neg hsame, if_neg hdirect]
  exact h

theorem pfr_dedup (resp : FlightResponse) (o : Airport) (c : City) (p : Params)
    (voli : List Flight) (keys : Ledger) :
    process_flight_response resp o c p voli keys =
      process_flight_response ⟨[dedupFrom [] (allItems resp)]⟩ o c p voli keys := by
  have hA : allItems ⟨[dedupFrom [] (allItems resp)]⟩ =
      dedupFrom [] (allItems resp) := by
    simp [allItems]
  rw [process_flight_response, process_flight_response, hA]
  rw [← runPass_dedupFrom true p o c (allItems resp) [] voli keys]
  cases h1 : runPass true p o c (allItems resp) [] voli keys with
  | error e => rfl
  | ok vk =>
    obtain ⟨v1, k1⟩ := vk
    exact runPass_dedupFrom false p o c (allItems resp) [] v1 k1

theorem lookupKey_mono {keys : Ledger} {key : String}
    (h : (lookupKey keys key).isSome = true) (l : Ledger) :
    (lookupKey (keys ++ l) key).isSome = true := by
  obtain ⟨i, hi⟩ := Option.isSome_iff_exists.mp h
  rw [lookupKey_append_some hi l]
  rfl

theorem ledgerStep_keys_collision {voli : List Flight} {keys : Ledger}
    {f : Flight} {v : List Flight} {k : Ledger} {idx : Nat}
    (hs : ledgerStep voli keys f = .ok (v, k))
    (hl : lookupKey keys (mkKey f) = some idx) : k = keys := by
  rcases ledgerStep_anatomy hs with ⟨_, _, _, _, hk, _⟩ | ⟨hl2, _, _⟩
  · exact hk
  · rw [hl] at hl2
    cases hl2

theorem ledgerStep_keys_appended {voli : List Flight} {keys : Ledger}
    {f : Flight} {v : List Flight} {k : Ledger}
    (hs : ledgerStep voli keys f = .ok (v, k))
    (hl : lookupKey keys (mkKey f) = none) :
    v = voli ++ [f] ∧ k = keys ++ [(mkKey f, voli.length)] := by
  rcases ledgerStep_anatomy hs with ⟨idx, _, hl2, _, _, _⟩ | ⟨_, hv, hk⟩
  · rw [hl] at hl2
    cases hl2
  · exact ⟨hv, hk⟩

theorem runPassT_fst (ca : Bool) (p : Params) (o : Airport) (c : City) :
    ∀ (items : List Item) (visti : List String) (voli : List Flight)
      (keys : Ledger),
      (runPassT ca p o c items visti voli keys).1 =
        runPass ca p o c items visti voli keys := by
  intro items
  induction items with
  | nil => intro visti voli keys; rfl
  | cons it rest ih =>
    intro visti voli keys
    by_cases hv : it.id ∈ visti
    · rw [runPassT, runPass, if_pos hv, if_pos hv]
      exact ih visti voli keys
    · cases hpi : processItem ca p o c it with
      | error e =>
        rw [runPassT, runPass]
        simp only [if_neg hv, hpi]
      | ok of =>
        cases of with
        | none =>
          rw [runPassT, runPass]
          simp only [if_neg hv, hpi]
          exact ih _ voli keys
        | some flight =>
          cases hs : ledgerStep voli keys flight with
          | error e =>
            rw [runPassT, runPass]
            simp only [if_neg hv, hpi, hs]
          | ok vk =>
            obtain ⟨v, k⟩ := vk
            rw [runPassT, runPass]
            simp only [if_neg hv, hpi, hs]
            cases hl : lookupKey keys (mkKey flight) with
            | some i => exact ih _ v k
            | none => exact ih _ v k

theorem runPassT_trace_fresh (ca : Bool) (p : Params) (o : Airport) (c : City) :
    ∀ (items : List Item) (visti : List String) (voli : List Flight)
      (keys : Ledger),
      (∀ y ∈ (runPassT ca p o c items visti voli keys).2, y ∉ visti) ∧
      (runPassT ca p o c items visti voli keys).2.Nodup := by
  intro items
  induction items with
  | nil => intro visti voli keys; exact ⟨by simp [runPassT], by simp [runPassT]⟩
  | cons it rest ih =>
    intro visti voli keys
    by_cases hv : it.id ∈ visti
    · rw [runPassT, if_pos hv]
      exact ih visti voli keys
    · cases hpi : processItem ca p o c it with
      | error e =>
        rw [runPassT]
        simp only [if_neg hv, hpi]
        exact ⟨by simp, List.nodup_nil⟩
      | ok of =>
        cases of with
        | none =>
          rw [runPassT]
          simp only [if_neg hv, hpi]
          obtain ⟨hfresh, hnd⟩ := ih (it.id :: visti) voli keys
          exact ⟨fun y hy => fun hmem =>
            hfresh y hy (List.mem_cons_of_mem _ hmem), hnd⟩
        | some flight =>
          cases hs : ledgerStep voli keys flight with
          | error e =>
            rw [runPassT]
            simp only [if_neg hv, hpi, hs]
            exact ⟨by simp, List.nodup_nil⟩
          | ok vk =>
            obtain ⟨v, k⟩ := vk
            rw [runPassT]
            simp only [if_neg hv, hpi, hs]
            obtain ⟨hfresh, hnd⟩ := ih (it.id :: visti) v k
            cases hl : lookupKey keys (mkKey flight) with
            | some i =>
              exact ⟨fun y hy => fun hmem =>
                hfresh y hy (List.mem_cons_of_mem _ hmem), hnd⟩
            | none =>
              constructor
              · intro y hy
                rcases List.mem_cons.mp hy with hy1 | hy2
                · rw [hy1]; exact hv
                · exact fun hmem => hfresh y hy2 (List.mem_cons_of_mem _ hmem)
              · refine List.nodup_cons.mpr ⟨?_, hnd⟩
                intro hmem
                exact hfresh it.id hmem (List.mem_cons_self _ _)

theorem runPassT_mono (ca : Bool) (p : Params) (o : Airport) (c : City) :
    ∀ (items : List Item) (visti : List String) (voli : List Flight)
      (keys : Ledger) (v' : List Flight) (k' : Ledger) (t : List String),
      runPassT ca p o c items visti voli keys = (.ok (v', k'), t) →
      ∀ key, (lookupKey keys key).isSome = true →
        (lookupKey k' key).isSome = true := by
  intro items
  induction items with
  | nil =>
    intro visti voli keys v' k' t h key hk
    rw [runPassT] at h
    simp only [Prod.mk.injEq, Except.ok.injEq] at h
    rw [← h.1.2]
    exact hk
  | cons it rest ih =>
    intro visti voli keys v' k' t h key hk
    rw [runPassT] at h
    by_cases hv : it.id ∈ visti
    · rw [if_pos hv] at h
      exact ih visti voli keys v' k' t h key hk
    · rw [if_neg hv] at h
      cases hpi : processItem ca p o c it with
      | error e => simp only [hpi, Prod.mk.injEq] at h; cases h.1
      | ok of =>
        cases of with
        | none =>
          simp only [hpi] at h
          exact ih _ voli keys v' k' t h key hk
        | some flight =>
          cases hs : ledgerStep voli keys flight with
          | error e => simp only [hpi, hs, Prod.mk.injEq] at h; cases h.1
          | ok vk =>
            obtain ⟨v, k⟩ := vk
            simp only [hpi, hs] at h
            cases hl : lookupKey keys (mkKey flight) with
            | some i =>
              simp only [hl] at h
              have hkk : k = keys := ledgerStep_keys_collision hs hl
              rw [← hkk] at hk
              exact ih _ v k v' k' t h key hk
            | none =>
              simp only [hl] at h
              obtain ⟨_, hkk⟩ := ledgerStep_keys_appended hs hl
              have hk' : (lookupKey k key).isSome = true := by
                rw [hkk]
                exact lookupKey_mono hk _
              simp only [Prod.mk.injEq] at h
              refine ih (it.id :: visti) v k v' k'
                ((runPassT ca p o c rest (it.id :: visti) v k).2) ?_ key hk'
              rw [← h.1]

theorem runPassT_length (ca : Bool) (p : Params) (o : Airport) (c : City) :
    ∀ (items : List Item) (visti : List String) (voli : List Flight)
      (keys : Ledger) (v' : List Flight) (k' : Ledger) (t : List String),
      runPassT ca p o c items visti voli keys = (.ok (v', k'), t) →
      v'.length = voli.length + t.length := by
  intro items
  induction items with
  | nil =>
    intro visti voli keys v' k' t h
    rw [runPassT] at h
    simp only [Prod.mk.injEq, Except.ok.injEq] at h
    rw [← h.1.1, ← h.2]
    simp
  | cons it rest ih =>
    intro visti voli keys v' k' t h
    rw [runPassT] at h
    by_cases hv : it.id ∈ visti
    · rw [if_pos hv] at h
      exact ih visti voli keys v' k' t h
    · rw [if_neg hv] at h
      cases hpi : processItem ca p o c it with
      | error e => simp only [hpi, Prod.mk.injEq] at h; cases h.1
      | ok of =>
        cases of with
        | none =>
          simp only [hpi] at h
          exact ih _ voli keys v' k' t h
        | some flight =>
          cases hs : ledgerStep voli keys flight with
          | error e => simp only [hpi, hs, Prod.mk.injEq] at h; cases h.1
          | ok vk =>
            obtain ⟨v, k⟩ := vk
            simp only [hpi, hs] at h
            cases hl : lookupKey keys (mkKey flight) with
            | some i =>
              simp only [hl] at h
              have hrec := ih _ v k v' k' t h
              rcases ledgerStep_anatomy hs with
                ⟨_, _, _, _, _, hlen⟩ | ⟨hl2, _, _⟩
              · omega
              · rw [hl] at hl2; cases hl2
            | none =>
              simp only [hl, Prod.mk.injEq] at h
              obtain ⟨hvv, _⟩ := ledgerStep_keys_appended hs hl
              have hrec := ih _ v k v' k'
                ((runPassT ca p o c rest (it.id :: visti) v k).2) (by rw [← h.1])
              have hlen : v.length = voli.length + 1 := by
                rw [hvv]; simp
              rw [← h.2]
              simp only [List.length_cons] at hrec ⊢
              omega

theorem runPassT_cross (p : Params) (o : Airport) (c : City) :
    ∀ (items : List Item) (visti : List String)
      (voli1 : List Flight) (keys1 : Ledger)
      (voli2 : List Flight) (keys2 : Ledger)
      (v1 : List Flight) (k1 : Ledger) (t1 : List String)
      (r2 : Except PyErr (List Flight × Ledger)) (t2 : List String),
      runPassT true p o c items visti voli1 keys1 = (.ok (v1, k1), t1) →
      runPassT false p o c items visti voli2 keys2 = (r2, t2) →
      (∀ key, (lookupKey k1 key).isSome = true →
        (lookupKey keys2 key).isSome = true) →
      ∀ x, x ∈ t1 → x ∉ t2 := by
  intro items
  induction items with
  | nil =>
    intro visti voli1 keys1 voli2 keys2 v1 k1 t1 r2 t2 h1 h2 hdom x hx
    rw [runPassT] at h1
    simp only [Prod.mk.injEq] at h1
    rw [← h1.2] at hx
    exact absurd hx (List.not_mem_nil x)
  | cons it rest ih =>
    intro visti voli1 keys1 voli2 keys2 v1 k1 t1 r2 t2 h1 h2 hdom x hx
    rw [runPassT] at h1 h2
    by_cases hv : it.id ∈ visti
    · rw [if_pos hv] at h1 h2
      exact ih visti voli1 keys1 voli2 keys2 v1 k1 t1 r2 t2 h1 h2 hdom x hx
    · rw [if_neg hv] at h1 h2
      cases hpi1 : processItem true p o c it with
      | error e => simp only [hpi1, Prod.mk.injEq] at h1; cases h1.1
      | ok of1 =>
        cases of1 with
        | none =>
          simp only [hpi1] at h1
          cases hpi2 : processItem false p o c it with
          | error e =>
            simp only [hpi2, Prod.mk.injEq] at h2
            rw [← h2.2]
            exact List.not_mem_nil x
          | ok of2 =>
            cases of2 with
            | none =>
              simp only [hpi2] at h2
              exact ih _ voli1 keys1 voli2 keys2 v1 k1 t1 r2 t2 h1 h2 hdom x hx
            | some f2 =>
              simp only [hpi2] at h2
              cases hs2 : ledgerStep voli2 keys2 f2 with
              | error e =>
                simp only [hs2, Prod.mk.injEq] at h2
                rw [← h2.2]
                exact List.not_mem_nil x
              | ok vk2 =>
                obtain ⟨v2, k2⟩ := vk2
                simp only [hs2] at h2
                cases hl2 : lookupKey keys2 (mkKey f2) with
                | some i2 =>
                  simp only [hl2] at h2
                  have hk2 : k2 = keys2 := ledgerStep_keys_collision hs2 hl2
                  refine ih _ voli1 keys1 v2 k2 v1 k1 t1 r2 t2 h1 h2 ?_ x hx
                  intro key hkk
                  rw [hk2]
                  exact hdom key hkk
                | none =>
                  simp only [hl2, Prod.mk.injEq] at h2
                  obtain ⟨_, hk2⟩ := ledgerStep_keys_appended hs2 hl2
                  rw [← h2.2]
                  intro hmem
                  rcases List.mem_cons.mp hmem with heq | hmem2
                  · have hx' : x ∈ (runPassT true p o c rest (it.id :: visti)
                        voli1 keys1).2 := by rw [h1]; exact hx
                    have hnot := (runPassT_trace_fresh true p o c rest
                      (it.id :: visti) voli1 keys1).1 x hx'
                    exact hnot (heq ▸ List.mem_cons_self _ _)
                  · have hdom' : ∀ key, (lookupKey k1 key).isSome = true →
                        (lookupKey k2 key).isSome = true := by
                      intro key hkk
                      rw [hk2]
                      exact lookupKey_mono (hdom key hkk) _
                    exact (ih _ voli1 keys1 v2 k2 v1 k1 t1 _ _ h1 rfl hdom'
                      x hx) hmem2
        | some f1 =>
          simp only [hpi1] at h1
          cases hs1 : ledgerStep voli1 keys1 f1 with
          | error e => simp only [hs1, Prod.mk.injEq] at h1; cases h1.1
          | ok vk1 =>
            obtain ⟨v1m, k1m⟩ := vk1
            simp only [hs1] at h1
            have hpi2 := processItem_pass2 p o c it f1 hpi1
            simp only [hpi2] at h2
            cases hs2 : ledgerStep voli2 keys2 f1 with
            | error e =>
              simp only [hs2, Prod.mk.injEq] at h2
              rw [← h2.2]
              exact List.not_mem_nil x
            | ok vk2 =>
              obtain ⟨v2, k2⟩ := vk2
              simp only [hs2] at h2
              cases hl1 : lookupKey keys1 (mkKey f1) with
              | some i1 =>
                simp only [hl1] at h1
                cases hl2 : lookupKey keys2 (mkKey f1) with
                | some i2 =>
                  simp only [hl2] at h2
                  have hk2 : k2 = keys2 := ledgerStep_keys_collision hs2 hl2
                  refine ih _ v1m k1m v2 k2 v1 k1 t1 r2 t2 h1 h2 ?_ x hx
                  intro key hkk
                  rw [hk2]
                  exact hdom key hkk
                | none =>
                  simp only [hl2, Prod.mk.injEq] at h2
                  obtain ⟨_, hk2⟩ := ledgerStep_keys_appended hs2 hl2
                  rw [← h2.2]
                  intro hmem
                  rcases List.mem_cons.mp hmem with heq | hmem2
                  · have hx' : x ∈ (runPassT true p o c rest (it.id :: visti)
                        v1m k1m).2 := by rw [h1]; exact hx
                    have hnot := (runPassT_trace_fresh true p o c rest
                      (it.id :: visti) v1m k1m).1 x hx'
                    exact hnot (heq ▸ List.mem_cons_self _ _)
                  · have hdom' : ∀ key, (lookupKey k1 key).isSome = true →
                        (lookupKey k2 key).isSome = true := by
                      intro key hkk
                      rw [hk2]
                      exact lookupKey_mono (hdom key hkk) _
                    exact (ih _ v1m k1m v2 k2 v1 k1 t1 _ _ h1 rfl hdom'
                      x hx) hmem2
              | none =>
                simp only [hl1, Prod.mk.injEq] at h1
                obtain ⟨_, hk1m⟩ := ledgerStep_keys_appended hs1 hl1
                have hsome_k1m : (lookupKey k1m (mkKey f1)).isSome = true := by
                  rw [hk1m, lookupKey_append_none hl1, if_pos rfl]
                  rfl
                have hsome_k1 : (lookupKey k1 (mkKey f1)).isSome = true := by
                  refine runPassT_mono true p o c rest (it.id :: visti) v1m k1m
                    v1 k1 ((runPassT true p o c rest (it.id :: visti)
                      v1m k1m).2) ?_ (mkKey f1) hsome_k1m
                  rw [← h1.1]
                have hsome_keys2 := hdom (mkKey f1) hsome_k1
                cases hl2 : lookupKey keys2 (mkKey f1) with
                | none => rw [hl2] at hsome_keys2; simp at hsome_keys2
                | some i2 =>
                  simp only [hl2] at h2
                  have hk2 : k2 = keys2 := ledgerStep_keys_collision hs2 hl2
                  rw [← h1.2] at hx
                  rcases List.mem_cons.mp hx with heq | hx2
                  · intro hmem
                    have hmem' : x ∈ (runPassT false p o c rest (it.id :: visti)
                        v2 k2).2 := by rw [h2]; exact hmem
                    exact (runPassT_trace_fresh false p o c rest (it.id :: visti)
                      v2 k2).1 x hmem' (heq ▸ List.mem_cons_self _ _)
                  · have hdom' : ∀ key, (lookupKey k1 key).isSome = true →
                        (lookupKey k2 key).isSome = true := by
                      intro key hkk
                      rw [hk2]
                      exact hdom key hkk
                    refine ih _ v1m k1m v2 k2 v1 k1
                      ((runPassT true p o c rest (it.id :: visti) v1m k1m).2)
                      r2 t2 ?_ h2 hdom' x hx2
                    rw [← h1.1]

theorem processTrace_spec (resp : FlightResponse) (o : Airport) (c : City)
    (p : Params) (voli : List Flight) (keys : Ledger) :
    (processTrace resp o c p voli keys).1 =
      process_flight_response resp o c p voli keys := by
  rw [processTrace, process_flight_response]
  rcases hr1 : runPassT true p o c (allItems resp) [] voli keys with ⟨res1, t1⟩
  have hp1 : runPass true p o c (allItems resp) [] voli keys = res1 := by
    rw [← runPassT_fst, hr1]
  rw [hp1]
  cases res1 with
  | error e => rfl
  | ok vk =>
    obtain ⟨v1, k1⟩ := vk
    exact runPassT_fst false p o c (allItems resp) [] v1 k1

theorem processTrace_appends (resp : FlightResponse) (o : Airport) (c : City)
    (p : Params) (voli : List Flight) (keys : Ledger) (v' : List Flight)
    (k' : Ledger) (t : List String)
    (h : processTrace resp o c p voli keys = (.ok (v', k'), t)) :
    v'.length = voli.length + t.length := by
  rw [processTrace] at h
  rcases hr1 : runPassT true p o c (allItems resp) [] voli keys with ⟨res1, t1⟩
  rw [hr1] at h
  cases res1 with
  | error e => simp only [Prod.mk.injEq] at h; cases h.1
  | ok vk =>
    obtain ⟨v1, k1⟩ := vk
    simp only [Prod.mk.injEq] at h
    have hlen1 := runPassT_length true p o c (allItems resp) [] voli keys
      v1 k1 t1 hr1
    have hlen2 := runPassT_length false p o c (allItems resp) [] v1 k1 v' k'
      ((runPassT false p o c (allItems resp) [] v1 k1).2) (by rw [← h.1])
    rw [← h.2]
    simp only [List.length_append]
    omega

theorem processTrace_count (resp : FlightResponse) (o : Airport) (c : City)
    (p : Params) (voli : List Flight) (keys : Ledger) (x : String) :
    ((processTrace resp o c p voli keys).2.count x) ≤ 1 := by
  rw [processTrace]
  rcases hr1 : runPassT true p o c (allItems resp) [] voli keys with ⟨res1, t1⟩
  cases res1 with
  | error e => simp
  | ok vk =>
    obtain ⟨v1, k1⟩ := vk
    have hnd1 : t1.Nodup := by
      have := (runPassT_trace_fresh true p o c (allItems resp) [] voli keys).2
      rw [hr1] at this
      exact this
    have hnd2 : ((runPassT false p o c (allItems resp) [] v1 k1).2).Nodup :=
      (runPassT_trace_fresh false p o c (allItems resp) [] v1 k1).2
    have hd : x ∈ t1 →
        x ∉ (runPassT false p o c (allItems resp) [] v1 k1).2 := by
      intro hx
      exact runPassT_cross p o c (allItems resp) [] voli keys v1 k1 v1 k1 t1
        _ _ hr1 rfl (fun _ h => h) x hx
    show ((t1 ++ (runPassT false p o c (allItems resp) [] v1 k1).2).count x) ≤ 1
    rw [List.count_append]
    by_cases hx : x ∈ t1
    · have h2 : ((runPassT false p o c (allItems resp) [] v1 k1).2).count x = 0 :=
        List.count_eq_zero.mpr (hd hx)
      have h1 : t1.count x ≤ 1 := List.nodup_iff_count_le_one.mp hnd1 x
      omega
    · have h1 : t1.count x = 0 := List.count_eq_zero.mpr hx
      have h2 := List.nodup_iff_count_le_one.mp hnd2 x
      omega

/-- Claim C7: duplicate ids yield at most one appended record. First,
items repeating an already-seen id contribute nothing: the builder's
output on a response equals its output on the response with only the
first occurrence of each id kept. Second, via the instrumented builder
`processTrace` — whose result provably *is* `process_flight_response`
and whose trace tags every ledger append with the causing item's id, the
number of records the call adds to the aggregate list being exactly the
trace length — every id occurs in the trace of one call at most once:
for any id, at most one Flight Record is appended for it. -/
theorem duplicate_id_dedup :
    (∀ resp o c p (voli : List Flight) (keys : Ledger),
      process_flight_response resp o c p voli keys =
        process_flight_response ⟨[dedupFrom [] (allItems resp)]⟩ o c p
          voli keys) ∧
    (∀ resp o c p (voli : List Flight) (keys : Ledger),
      (processTrace resp o c p voli keys).1 =
        process_flight_response resp o c p voli keys) ∧
    (∀ resp o c p (voli : List Flight) (keys : Ledger) (v' : List Flight)
        (k' : Ledger) (t : List String),
      processTrace resp o c p voli keys = (.ok (v', k'), t) →
      v'.length = voli.length + t.length) ∧
    (∀ resp o c p (voli : List Flight) (keys : Ledger) (x : String),
      ((processTrace resp o c p voli keys).2.count x) ≤ 1) :=
  ⟨pfr_dedup, processTrace_spec,
    fun resp o c p voli keys v' k' t h =>
      processTrace_appends resp o c p voli keys v' k' t h,
    processTrace_count⟩

/-- Claim C7 witness: `respC7` repeats id "it-1" across two buckets (the
second copy cheaper); the call equals processing the deduped response,
its trace is exactly one append tagged "it-1", and one record is added. -/
theorem duplicate_id_dedup_witness :
    process_flight_response respC7 originEx cityEx paramsC4 [] [] =
      process_flight_response ⟨[dedupFrom [] (allItems respC7)]⟩ originEx
        cityEx paramsC4 [] [] ∧
    (processTrace respC7 originEx cityEx paramsC4 [] []).1 =
      process_flight_response respC7 originEx cityEx paramsC4 [] [] ∧
    ([flightC1] : List Flight).length =
      ([] : List Flight).length + (["it-1"] : List String).length ∧
    ((processTrace respC7 originEx cityEx paramsC4 [] []).2.count "it-1") ≤ 1 := by
  refine ⟨duplicate_id_dedup.1 respC7 originEx cityEx paramsC4 [] [],
    duplicate_id_dedup.2.1 respC7 originEx cityEx paramsC4 [] [], ?_,
    duplicate_id_dedup.2.2.2 respC7 originEx cityEx paramsC4 [] [] "it-1"⟩
  exact duplicate_id_dedup.2.2.1 respC7 originEx cityEx paramsC4 [] []
    [flightC1] [("VCE-LON-08:00-N/A", 0)] ["it-1"] rfl
